import Mathlib

/-!
Verification development for the Library Checkout application
(main process database layer in main.js, suggestion display logic in
renderer.js).  The SQLite schema and the SQL statements issued by the
IPC handlers are embedded shallowly: tables become lists of rows,
CURRENT_TIMESTAMP becomes an explicit time parameter, and each handler
becomes a pure state transformer.  Timestamps are modelled as natural
numbers counting seconds.
-/

/-- ASCII lowercasing of a string, as computed by the SQLite LOWER
function (only the 26 ASCII letters are folded).  Defined directly on
the character list so that it evaluates by kernel reduction. -/
def lowerStr (s : String) : String :=
  ⟨s.data.map Char.toLower⟩

/-- All suffixes of a character list, longest first (and including the
empty suffix). -/
def tails : List Char → List (List Char)
  | [] => [[]]
  | c :: cs => (c :: cs) :: tails cs

/-- SQLite LIKE matching of a pattern against a text: the percent sign
matches any sequence of characters, the underscore matches any single
character, every other pattern character matches itself.  Both sides
are already lowercased by the callers, so case folding is not repeated
here. -/
def likeMatch : List Char → List Char → Bool
  | [], s => s.isEmpty
  | '%' :: ps, s => (tails s).any (fun t => likeMatch ps t)
  | '_' :: ps, s =>
    match s with
    | [] => false
    | _ :: cs => likeMatch ps cs
  | c :: ps, s =>
    match s with
    | [] => false
    | d :: cs => c == d && likeMatch ps cs

/-- The SQL expression `hay LIKE '%' || needle || '%'`: the needle,
read as a LIKE pattern, occurs somewhere inside the haystack. -/
def likeContains (hay needle : String) : Bool :=
  likeMatch ('%' :: (needle.data ++ ['%'])) hay.data

/-- Case-free occurrence as a contiguous segment: the spec-level reading
of the LIKE containment used by the scoring query.  It agrees with
likeContains whenever the needle holds no LIKE wildcard (see the lemma
likeContains_eq_seg below). -/
def containsSeg (hay needle : List Char) : Prop :=
  ∃ l r, hay = l ++ needle ++ r

/-- SELECT DISTINCT, restricted to the rows not seen yet; keeps the
first occurrence of each row. -/
def distinctAux {α : Type} [DecidableEq α] (seen : List α) : List α → List α
  | [] => []
  | a :: l => if a ∈ seen then distinctAux seen l else a :: distinctAux (a :: seen) l

/-- SELECT DISTINCT over a list of rows. -/
def distinct {α : Type} [DecidableEq α] (l : List α) : List α :=
  distinctAux [] l

/-- Insertion of an element into a list sorted by a boolean relation. -/
def insertLE {α : Type} (le : α → α → Bool) (a : α) : List α → List α
  | [] => [a]
  | b :: l => if le a b then a :: b :: l else b :: insertLE le a l

/-- Insertion sort by a boolean relation; models an SQL ORDER BY with
the given comparison. -/
def sortLE {α : Type} (le : α → α → Bool) : List α → List α
  | [] => []
  | a :: l => insertLE le a (sortLE le l)

/-- A row of the books table (the Catalog Store).  The isbn column is
the unique catalog identifier. -/
structure Book where
  id : Nat
  isbn : String
  title : String
  author : String
  coverUrl : String
  description : String
  categories : String
  copiesTotal : Int
  createdAt : Nat
  updatedAt : Nat
deriving DecidableEq

/-- A row of the checkouts table (the Circulation Ledger).  The
returned flag and return date exist in the schema with default 0 and
NULL; the current return handler deletes rows instead of setting them. -/
structure Checkout where
  id : Nat
  userId : Nat
  isbn : String
  title : String
  author : String
  coverUrl : String
  checkoutDate : Nat
  dueDate : Nat
  returned : Bool
  returnDate : Option Nat
deriving DecidableEq

/-- The persistent store: the two tables relevant to the catalog and
circulation core, together with the AUTOINCREMENT counters. -/
structure LibraryState where
  books : List Book
  checkouts : List Checkout
  nextBookId : Nat
  nextCheckoutId : Nat
deriving DecidableEq

/-- The record handed to upsertBookRecord.  The JavaScript object may
carry the author as a single string or as an array, the cover under two
different keys, and the categories as an array or a string; a missing
string field is modelled as the empty string (both are falsy). -/
structure BookRecord where
  isbn : String
  title : String
  author : String
  authors : Option (List String)
  coverUrl : String
  cover_url : String
  description : String
  categoriesArr : Option (List String)
  categoriesStr : String
deriving DecidableEq

/-- Guard of upsertBookRecord: a falsy isbn or the sentinel string. -/
def isNoIsbn (isbn : String) : Bool :=
  decide (isbn = "") || decide (isbn = "No ISBN")

/-- Effective title parameter: book.title with the fallback value. -/
def effTitle (bk : BookRecord) : String :=
  if bk.title = "" then "Unknown Title" else bk.title

/-- Effective author parameter: book.author, else the joined authors
array, else the fallback value. -/
def effAuthor (bk : BookRecord) : String :=
  if bk.author = "" then
    match bk.authors with
    | some l => String.intercalate ", " l
    | none => "Unknown Author"
  else bk.author

/-- Effective cover parameter: book.coverUrl, else book.cover_url,
else the empty string. -/
def effCover (bk : BookRecord) : String :=
  if bk.coverUrl = "" then (if bk.cover_url = "" then "" else bk.cover_url) else bk.coverUrl

/-- Effective description parameter: book.description (a missing value
is the empty string). -/
def effDescription (bk : BookRecord) : String :=
  bk.description

/-- Effective categories parameter: the joined array when the field is
an array, else the string value. -/
def effCategories (bk : BookRecord) : String :=
  match bk.categoriesArr with
  | some l => String.intercalate ", " l
  | none => bk.categoriesStr

/-- The ON CONFLICT update branch of the upsert: title, author and
cover are overwritten, description and categories keep the stored value
when the incoming one is empty (COALESCE over NULLIF), updated_at is
refreshed. -/
def mergeBookRow (now : Nat) (bk : BookRecord) (b : Book) : Book :=
  { b with
    title := effTitle bk
    author := effAuthor bk
    coverUrl := effCover bk
    description := if effDescription bk = "" then b.description else effDescription bk
    categories := if effCategories bk = "" then b.categories else effCategories bk
    updatedAt := now }

/-- The INSERT branch of the upsert: a fresh row with copies_total at
its schema default of 1. -/
def freshBookRow (now : Nat) (bk : BookRecord) (bookId : Nat) : Book :=
  { id := bookId
    isbn := bk.isbn
    title := effTitle bk
    author := effAuthor bk
    coverUrl := effCover bk
    description := effDescription bk
    categories := effCategories bk
    copiesTotal := 1
    createdAt := now
    updatedAt := now }

/-- Per-row effect of the upsert conflict clause on the books table. -/
def updFn (now : Nat) (bk : BookRecord) (b : Book) : Book :=
  if b.isbn = bk.isbn then mergeBookRow now bk b else b

/-- upsertBookRecord from main.js: a no-op on a missing or sentinel
isbn, otherwise INSERT ... ON CONFLICT(isbn) DO UPDATE. -/
def upsertBookRecord (now : Nat) (bk : BookRecord) (s : LibraryState) : LibraryState :=
  if isNoIsbn bk.isbn then s
  else if s.books.any (fun b => decide (b.isbn = bk.isbn)) then
    { s with books := s.books.map (updFn now bk) }
  else
    { s with
      books := s.books ++ [freshBookRow now bk s.nextBookId]
      nextBookId := s.nextBookId + 1 }

/-- The fixed loan period: the schema default for due_date is
datetime of now plus 7 days. -/
def loanPeriodSeconds : Nat := 7 * 24 * 60 * 60

/-- A freshly inserted checkouts row: checkout_date defaults to now,
due_date to now plus the loan period, returned to 0, return_date to
NULL. -/
def mkCheckout (now cid userId : Nat) (isbn title author coverUrl : String) : Checkout :=
  { id := cid
    userId := userId
    isbn := isbn
    title := title
    author := author
    coverUrl := coverUrl
    checkoutDate := now
    dueDate := now + loanPeriodSeconds
    returned := false
    returnDate := none }

/-- The record the checkout handler passes to upsertBookRecord: only
isbn, title, author and coverUrl are present. -/
def checkoutRecord (isbn title author coverUrl : String) : BookRecord :=
  { isbn := isbn
    title := title
    author := author
    authors := none
    coverUrl := coverUrl
    cover_url := ""
    description := ""
    categoriesArr := none
    categoriesStr := "" }

/-- Result of the checkout handler: the new store state, the success
flag, and this.lastID. -/
structure CheckoutResult where
  state : LibraryState
  success : Bool
  checkoutId : Nat
deriving DecidableEq

/-- The checkout-book handler: INSERT INTO checkouts, then upsert the
observed book.  No availability check of any kind is performed. -/
def checkoutBook (now userId : Nat) (isbn title author coverUrl : String)
    (s : LibraryState) : CheckoutResult :=
  let row := mkCheckout now s.nextCheckoutId userId isbn title author coverUrl
  let s1 : LibraryState :=
    { s with checkouts := s.checkouts ++ [row], nextCheckoutId := s.nextCheckoutId + 1 }
  { state := upsertBookRecord now (checkoutRecord isbn title author coverUrl) s1
    success := true
    checkoutId := row.id }

/-- Result of the return handler: the new store state and the success
flag (this.changes equal to 1). -/
structure ReturnResult where
  state : LibraryState
  success : Bool
deriving DecidableEq

/-- The return-book handler: DELETE FROM checkouts WHERE id = ?, a hard
delete of the loan row. -/
def returnBook (checkoutId : Nat) (s : LibraryState) : ReturnResult :=
  let remaining := s.checkouts.filter (fun c => decide (c.id ≠ checkoutId))
  { state := { s with checkouts := remaining }
    success := decide (s.checkouts.length - remaining.length = 1) }

/-- The stats common table expression of the suggestion query:
SELECT isbn, COUNT(*) FROM checkouts GROUP BY isbn, read at one isbn
(missing groups read as 0 through COALESCE). -/
def checkoutCount (s : LibraryState) (isbn : String) : Nat :=
  (s.checkouts.filter (fun c => decide (c.isbn = isbn))).length

/-- The current_loans common table expression of the suggestion query
and the active subquery of get-library-books: also
SELECT isbn, COUNT(*) FROM checkouts GROUP BY isbn, with no condition
on the returned flag. -/
def activeCount (s : LibraryState) (isbn : String) : Nat :=
  (s.checkouts.filter (fun c => decide (c.isbn = isbn))).length

/-- The availability expression used by both queries:
MAX(copies_total - active_count, 0). -/
def availableCopies (copiesTotal : Int) (active : Nat) : Int :=
  max (copiesTotal - (active : Int)) 0

/-- Modelled from the spec (claim C3 wording): the count of loan rows
for the isbn that are still outstanding, that is whose returned flag is
unset.  The SQL issued by the code does not filter on the flag; this
definition exists only to compare the two. -/
def specOutstandingCount (s : LibraryState) (isbn : String) : Nat :=
  (s.checkouts.filter (fun c => decide (c.isbn = isbn) && !c.returned)).length

/-- A row of the get-library-books result set. -/
structure LibraryBookRow where
  id : Nat
  isbn : String
  title : String
  author : String
  coverUrl : String
  description : String
  categories : String
  copiesTotal : Int
  availableCopies : Int
deriving DecidableEq

/-- ORDER BY b.updated_at DESC. -/
def updatedDescLE (b1 b2 : Book) : Bool :=
  decide (b2.updatedAt ≤ b1.updatedAt)

/-- The get-library-books handler: every catalog row with its computed
available-copy count, most recently updated first. -/
def libraryBooks (s : LibraryState) : List LibraryBookRow :=
  (sortLE updatedDescLE s.books).map (fun b =>
    { id := b.id
      isbn := b.isbn
      title := b.title
      author := b.author
      coverUrl := b.coverUrl
      description := b.description
      categories := b.categories
      copiesTotal := b.copiesTotal
      availableCopies := availableCopies b.copiesTotal (activeCount s b.isbn) })

/-- A row of the user_history common table expression:
SELECT DISTINCT isbn, title, author FROM checkouts WHERE user_id = ?. -/
structure HistoryRow where
  isbn : String
  title : String
  author : String
deriving DecidableEq

/-- The user_history common table expression for one user. -/
def userHistory (s : LibraryState) (userId : Nat) : List HistoryRow :=
  distinct ((s.checkouts.filter (fun c => decide (c.userId = userId))).map
    (fun c => { isbn := c.isbn, title := c.title, author := c.author }))

/-- EXISTS (SELECT 1 FROM user_history uh WHERE LOWER(uh.author) =
LOWER(b.author)). -/
def authorMatch (hist : List HistoryRow) (b : Book) : Bool :=
  hist.any (fun h => decide (lowerStr h.author = lowerStr b.author))

/-- EXISTS (SELECT 1 FROM user_history uh WHERE uh.title != b.title AND
(LOWER(b.title) LIKE the quoted loan title OR LOWER(COALESCE(
b.description, the empty string)) LIKE it)). -/
def titleOverlap (hist : List HistoryRow) (b : Book) : Bool :=
  hist.any (fun h =>
    decide (h.title ≠ b.title) &&
      (likeContains (lowerStr b.title) (lowerStr h.title) ||
        likeContains (lowerStr b.description) (lowerStr h.title)))

/-- The CASE expression of the score: 30 on an author match, else 15 on
a title or description overlap, else 0. -/
def overlapBonus (hist : List HistoryRow) (b : Book) : Nat :=
  if authorMatch hist b then 30 else if titleOverlap hist b then 15 else 0

/-- The availability contribution of the score: 10 when the computed
available-copy count is positive. -/
def availabilityBonus (avail : Int) : Nat :=
  if 0 < avail then 10 else 0

/-- The full score of one candidate book for one user: the CASE bonus,
plus the availability bonus, plus COALESCE(stats.checkout_count, 0). -/
def suggestionScore (s : LibraryState) (userId : Nat) (b : Book) : Nat :=
  overlapBonus (userHistory s userId) b
    + availabilityBonus (availableCopies b.copiesTotal (activeCount s b.isbn))
    + checkoutCount s b.isbn

/-- WHERE b.isbn NOT IN (SELECT isbn FROM user_history): the candidate
books of the suggestion query. -/
def candidateBooks (s : LibraryState) (userId : Nat) : List Book :=
  s.books.filter (fun b => !decide (b.isbn ∈ (userHistory s userId).map HistoryRow.isbn))

/-- ORDER BY score DESC, b.updated_at DESC. -/
def suggestionLE (s : LibraryState) (userId : Nat) (b1 b2 : Book) : Bool :=
  decide (suggestionScore s userId b2 < suggestionScore s userId b1) ||
    (decide (suggestionScore s userId b1 = suggestionScore s userId b2) &&
      decide (b2.updatedAt ≤ b1.updatedAt))

/-- A row of the personalized suggestion result set.  The updatedAt
column is not part of the SQL projection; it is carried along because
the ORDER BY clause reads it. -/
structure SuggestionRow where
  id : Nat
  isbn : String
  title : String
  author : String
  coverUrl : String
  description : String
  categories : String
  checkoutCount : Nat
  availableCopies : Int
  score : Nat
  updatedAt : Nat
deriving DecidableEq

/-- Projection of one candidate book to its suggestion row. -/
def mkSuggestionRow (s : LibraryState) (userId : Nat) (b : Book) : SuggestionRow :=
  { id := b.id
    isbn := b.isbn
    title := b.title
    author := b.author
    coverUrl := b.coverUrl
    description := b.description
    categories := b.categories
    checkoutCount := checkoutCount s b.isbn
    availableCopies := availableCopies b.copiesTotal (activeCount s b.isbn)
    score := suggestionScore s userId b
    updatedAt := b.updatedAt }

/-- The personalized half of get-user-book-suggestions: candidates,
ordered by score then recency, LIMIT 10, projected to rows. -/
def suggestionRows (s : LibraryState) (userId : Nat) : List SuggestionRow :=
  ((sortLE (suggestionLE s userId) (candidateBooks s userId)).take 10).map
    (mkSuggestionRow s userId)

/-- A row of the popular result set.  As above, updatedAt is carried
for the ORDER BY clause. -/
structure PopularRow where
  id : Nat
  isbn : String
  title : String
  author : String
  coverUrl : String
  description : String
  checkoutCount : Nat
  availableCopies : Int
  updatedAt : Nat
deriving DecidableEq

/-- ORDER BY checkoutCount DESC, b.updated_at DESC. -/
def popularLE (s : LibraryState) (b1 b2 : Book) : Bool :=
  decide (checkoutCount s b2.isbn < checkoutCount s b1.isbn) ||
    (decide (checkoutCount s b1.isbn = checkoutCount s b2.isbn) &&
      decide (b2.updatedAt ≤ b1.updatedAt))

/-- The popular half of get-user-book-suggestions: every catalog row,
ordered by global checkout count then recency, LIMIT 10. -/
def popularRows (s : LibraryState) : List PopularRow :=
  ((sortLE (popularLE s) s.books).take 10).map (fun b =>
    { id := b.id
      isbn := b.isbn
      title := b.title
      author := b.author
      coverUrl := b.coverUrl
      description := b.description
      checkoutCount := checkoutCount s b.isbn
      availableCopies := availableCopies b.copiesTotal (activeCount s b.isbn)
      updatedAt := b.updatedAt })

/-- The full response of the get-user-book-suggestions handler. -/
structure SuggestionsResponse where
  suggestions : List SuggestionRow
  popular : List PopularRow
deriving DecidableEq

/-- The get-user-book-suggestions handler. -/
def getUserBookSuggestions (s : LibraryState) (userId : Nat) : SuggestionsResponse :=
  { suggestions := suggestionRows s userId
    popular := popularRows s }

/-- The caller in renderer.js (showSuggestionsSection): the displayed
list is the personalized one when it is non-empty, else the popular
fallback.  Only the identifiers matter to the claims. -/
def displayedIsbns (resp : SuggestionsResponse) : List String :=
  if resp.suggestions.isEmpty then resp.popular.map PopularRow.isbn
  else resp.suggestions.map SuggestionRow.isbn

/-- The caller shows the fallback explanation text exactly when the
personalized list is empty. -/
def usedPopularFallback (resp : SuggestionsResponse) : Bool :=
  resp.suggestions.isEmpty

/-- SELECT b.* ... WHERE b.isbn = ?, the stored catalog row for one
identifier. -/
def findBook (s : LibraryState) (isbn : String) : Option Book :=
  s.books.find? (fun b => decide (b.isbn = isbn))

/-- Erasure of the updated_at column, used to state idempotence of the
upsert up to the timestamp refresh. -/
def stripUpdated (b : Book) : Book :=
  { b with updatedAt := 0 }

/-- A small catalog row used in the concrete scenarios below. -/
def exBook (bid : Nat) (isbn title author : String) (copies : Int) (upd : Nat) : Book :=
  { id := bid
    isbn := isbn
    title := title
    author := author
    coverUrl := ""
    description := ""
    categories := ""
    copiesTotal := copies
    createdAt := 0
    updatedAt := upd }

/-- A small ledger row used in the concrete scenarios below. -/
def exLoan (cid userId : Nat) (isbn title author : String) : Checkout :=
  { id := cid
    userId := userId
    isbn := isbn
    title := title
    author := author
    coverUrl := ""
    checkoutDate := 0
    dueDate := loanPeriodSeconds
    returned := false
    returnDate := none }

/-- The empty store. -/
def emptyState : LibraryState :=
  { books := [], checkouts := [], nextBookId := 1, nextCheckoutId := 1 }

/-- Scenario for claim C1: a one-book catalog, user 1 yet to borrow. -/
def ex1State0 : LibraryState :=
  { books := [exBook 1 "X" "TitleX" "AuthX" 1 0]
    checkouts := []
    nextBookId := 2
    nextCheckoutId := 1 }

/-- Scenario for claim C1: user 1 checks the book out. -/
def ex1Checkout : CheckoutResult :=
  checkoutBook 100 1 "X" "TitleX" "AuthX" "" ex1State0

/-- Scenario for claim C1: the loan (row id 1) is then returned. -/
def ex1Return : ReturnResult :=
  returnBook 1 ex1Checkout.state

/-- Scenario for claim C2: two books, user 2 borrowed the first five
times, user 1 has no history at all. -/
def ex2State : LibraryState :=
  { books := [exBook 1 "A" "Alpha" "Ann" 1 0, exBook 2 "B" "Beta" "Bob" 1 0]
    checkouts := [exLoan 1 2 "A" "Alpha" "Ann", exLoan 2 2 "A" "Alpha" "Ann",
      exLoan 3 2 "A" "Alpha" "Ann", exLoan 4 2 "A" "Alpha" "Ann",
      exLoan 5 2 "A" "Alpha" "Ann"]
    nextBookId := 3
    nextCheckoutId := 6 }

/-- Scenario for claim C3: a two-copy book with one ledger row flagged
returned (a row shape the schema admits and the UI still renders). -/
def ex3State : LibraryState :=
  { books := [exBook 1 "X" "TitleX" "AuthX" 2 0]
    checkouts := [{ exLoan 1 1 "X" "TitleX" "AuthX" with returned := true, returnDate := some 5 }]
    nextBookId := 2
    nextCheckoutId := 2 }

/-- Scenario for claim C4: user 1 borrowed Alpha by Ann; Beta by the
same author is the remaining candidate. -/
def ex4State : LibraryState :=
  { books := [exBook 1 "A" "Alpha" "Ann" 1 0, exBook 2 "B" "Beta" "Ann" 1 5]
    checkouts := [exLoan 1 1 "A" "Alpha" "Ann"]
    nextBookId := 3
    nextCheckoutId := 2 }

/-- An enrichment record whose title field is empty. -/
def recMissingTitle : BookRecord :=
  { isbn := "I"
    title := ""
    author := "AuthorA"
    authors := none
    coverUrl := "cov"
    cover_url := ""
    description := ""
    categoriesArr := none
    categoriesStr := "" }

/-- A fully populated enrichment record. -/
def recFull : BookRecord :=
  { isbn := "I"
    title := "T1"
    author := "A1"
    authors := none
    coverUrl := "c1"
    cover_url := ""
    description := "D1"
    categoriesArr := none
    categoriesStr := "K1" }

/-- The same record carrying the sentinel identifier. -/
def recNoIsbn : BookRecord :=
  { recFull with isbn := "No ISBN" }

theorem mem_insertLE {α : Type} (le : α → α → Bool) (a x : α) (l : List α) :
    x ∈ insertLE le a l ↔ x = a ∨ x ∈ l := by
  induction l with
  | nil => simp [insertLE]
  | cons b l ih =>
    simp only [insertLE]
    split
    · simp
    · simp only [List.mem_cons, ih]
      tauto

theorem mem_sortLE {α : Type} (le : α → α → Bool) (x : α) (l : List α) :
    x ∈ sortLE le l ↔ x ∈ l := by
  induction l with
  | nil => simp [sortLE]
  | cons a l ih => simp [sortLE, mem_insertLE, ih]

theorem length_insertLE {α : Type} (le : α → α → Bool) (a : α) (l : List α) :
    (insertLE le a l).length = l.length + 1 := by
  induction l with
  | nil => simp [insertLE]
  | cons b l ih =>
    simp only [insertLE]
    split
    · simp
    · simp [ih]

theorem length_sortLE {α : Type} (le : α → α → Bool) (l : List α) :
    (sortLE le l).length = l.length := by
  induction l with
  | nil => rfl
  | cons a l ih => simp [sortLE, length_insertLE, ih]

theorem pairwise_insertLE {α : Type} {le : α → α → Bool}
    (htrans : ∀ a b c, le a b = true → le b c = true → le a c = true)
    (htotal : ∀ a b, le a b = true ∨ le b a = true)
    (a : α) {l : List α} (h : l.Pairwise (fun x y => le x y = true)) :
    (insertLE le a l).Pairwise (fun x y => le x y = true) := by
  induction l with
  | nil => simp [insertLE]
  | cons b l ih =>
    rcases List.pairwise_cons.1 h with ⟨hb, hl⟩
    simp only [insertLE]
    split
    · rename_i hab
      refine List.pairwise_cons.2 ⟨?_, h⟩
      intro x hx
      rcases List.mem_cons.1 hx with rfl | hx
      · exact hab
      · exact htrans a b x hab (hb x hx)
    · rename_i hab
      have hba : le b a = true := by
        rcases htotal a b with h1 | h1
        · exact absurd h1 hab
        · exact h1
      refine List.pairwise_cons.2 ⟨?_, ih hl⟩
      intro x hx
      rcases (mem_insertLE le a x l).1 hx with rfl | hx
      · exact hba
      · exact hb x hx

theorem pairwise_sortLE {α : Type} {le : α → α → Bool}
    (htrans : ∀ a b c, le a b = true → le b c = true → le a c = true)
    (htotal : ∀ a b, le a b = true ∨ le b a = true)
    (l : List α) :
    (sortLE le l).Pairwise (fun x y => le x y = true) := by
  induction l with
  | nil => simp [sortLE]
  | cons a l ih => exact pairwise_insertLE htrans htotal a ih

theorem mem_distinctAux {α : Type} [DecidableEq α] (x : α) (seen l : List α) :
    x ∈ distinctAux seen l ↔ x ∈ l ∧ x ∉ seen := by
  induction l generalizing seen with
  | nil => simp [distinctAux]
  | cons a l ih =>
    simp only [distinctAux]
    split
    · rename_i hseen
      rw [ih]
      simp only [List.mem_cons]
      constructor
      · rintro ⟨h1, h2⟩
        exact ⟨Or.inr h1, h2⟩
      · rintro ⟨h1 | h1, h2⟩
        · subst h1; exact absurd hseen h2
        · exact ⟨h1, h2⟩
    · rename_i hseen
      simp only [List.mem_cons, ih]
      constructor
      · rintro (rfl | ⟨h1, h2⟩)
        · exact ⟨Or.inl rfl, hseen⟩
        · exact ⟨Or.inr h1, fun hx => h2 (Or.inr hx)⟩
      · rintro ⟨rfl | h1, h2⟩
        · exact Or.inl rfl
        · by_cases hxa : x = a
          · exact Or.inl hxa
          · exact Or.inr ⟨h1, fun hx => by
              rcases hx with h | h
              · exact hxa h
              · exact h2 h⟩

theorem mem_distinct {α : Type} [DecidableEq α] (x : α) (l : List α) :
    x ∈ distinct l ↔ x ∈ l := by
  simp [distinct, mem_distinctAux]

theorem suggestionLE_trans (s : LibraryState) (u : Nat) (a b c : Book)
    (h1 : suggestionLE s u a b = true) (h2 : suggestionLE s u b c = true) :
    suggestionLE s u a c = true := by
  simp only [suggestionLE, Bool.or_eq_true, Bool.and_eq_true, decide_eq_true_eq] at *
  omega

theorem suggestionLE_total (s : LibraryState) (u : Nat) (a b : Book) :
    suggestionLE s u a b = true ∨ suggestionLE s u b a = true := by
  simp only [suggestionLE, Bool.or_eq_true, Bool.and_eq_true, decide_eq_true_eq]
  omega

theorem popularLE_trans (s : LibraryState) (a b c : Book)
    (h1 : popularLE s a b = true) (h2 : popularLE s b c = true) :
    popularLE s a c = true := by
  simp only [popularLE, Bool.or_eq_true, Bool.and_eq_true, decide_eq_true_eq] at *
  omega

theorem popularLE_total (s : LibraryState) (a b : Book) :
    popularLE s a b = true ∨ popularLE s b a = true := by
  simp only [popularLE, Bool.or_eq_true, Bool.and_eq_true, decide_eq_true_eq]
  omega

theorem upsert_checkouts (now : Nat) (bk : BookRecord) (s : LibraryState) :
    (upsertBookRecord now bk s).checkouts = s.checkouts := by
  simp only [upsertBookRecord]
  split
  · rfl
  · split <;> rfl

theorem mergeBookRow_isbn (now : Nat) (bk : BookRecord) (b : Book) :
    (mergeBookRow now bk b).isbn = b.isbn := rfl

theorem updFn_isbn (now : Nat) (bk : BookRecord) (b : Book) :
    (updFn now bk b).isbn = b.isbn := by
  simp only [updFn]
  split <;> rfl

theorem merge_merge (t t' : Nat) (bk : BookRecord) (b : Book) :
    mergeBookRow t' bk (mergeBookRow t bk b) = { mergeBookRow t bk b with updatedAt := t' } := by
  cases b
  simp only [mergeBookRow]
  split <;> split <;> rfl

theorem merge_idem (t : Nat) (bk : BookRecord) (b : Book) :
    mergeBookRow t bk (mergeBookRow t bk b) = mergeBookRow t bk b := by
  cases b
  simp only [mergeBookRow]
  split <;> split <;> rfl

theorem merge_fresh (t t' : Nat) (bk : BookRecord) (bid : Nat) :
    mergeBookRow t' bk (freshBookRow t bk bid) = { freshBookRow t bk bid with updatedAt := t' } := by
  simp only [mergeBookRow, freshBookRow]
  split <;> split <;> rfl

theorem merge_fresh_idem (t : Nat) (bk : BookRecord) (bid : Nat) :
    mergeBookRow t bk (freshBookRow t bk bid) = freshBookRow t bk bid := by
  simp only [mergeBookRow, freshBookRow]
  split <;> split <;> rfl

theorem upsert_any (now : Nat) (bk : BookRecord) (s : LibraryState)
    (h : isNoIsbn bk.isbn = false) :
    (upsertBookRecord now bk s).books.any (fun b => decide (b.isbn = bk.isbn)) = true := by
  simp only [upsertBookRecord, h, Bool.false_eq_true, if_false]
  split
  · rename_i hany
    rw [List.any_map]
    have hfn : ((fun b => decide (b.isbn = bk.isbn)) ∘ updFn now bk)
        = (fun b => decide (b.isbn = bk.isbn)) := by
      funext b
      simp [Function.comp, updFn_isbn]
    rw [hfn]
    exact hany
  · simp [List.any_append, freshBookRow]

theorem upsert_of_any (now : Nat) (bk : BookRecord) (s : LibraryState)
    (hv : isNoIsbn bk.isbn = false)
    (hany : s.books.any (fun b => decide (b.isbn = bk.isbn)) = true) :
    upsertBookRecord now bk s = { s with books := s.books.map (updFn now bk) } := by
  simp [upsertBookRecord, hv, hany]

theorem updFn_idem (t : Nat) (bk : BookRecord) (b : Book) :
    updFn t bk (updFn t bk b) = updFn t bk b := by
  by_cases h : b.isbn = bk.isbn
  · simp only [updFn, h, if_true, mergeBookRow_isbn]
    simp [h, merge_idem]
  · simp [updFn, h]

theorem upsert_books_map_self (t : Nat) (bk : BookRecord) (s : LibraryState)
    (hv : isNoIsbn bk.isbn = false) :
    (upsertBookRecord t bk s).books.map (updFn t bk) = (upsertBookRecord t bk s).books := by
  simp only [upsertBookRecord, hv, Bool.false_eq_true, if_false]
  split
  · rename_i hany
    show (s.books.map (updFn t bk)).map (updFn t bk) = s.books.map (updFn t bk)
    rw [List.map_map]
    exact List.map_congr_left (fun b _ => updFn_idem t bk b)
  · rename_i hany
    have hnone : ∀ b ∈ s.books, ¬(b.isbn = bk.isbn) := by
      intro b hb heq
      exact hany (List.any_eq_true.2 ⟨b, hb, by simp [heq]⟩)
    show (s.books ++ [freshBookRow t bk s.nextBookId]).map (updFn t bk)
        = s.books ++ [freshBookRow t bk s.nextBookId]
    rw [List.map_append]
    congr 1
    · exact (List.map_congr_left (fun b hb => by
        simp [updFn, hnone b hb])).trans (List.map_id s.books)
    · show [updFn t bk (freshBookRow t bk s.nextBookId)] = [freshBookRow t bk s.nextBookId]
      have hfn : (freshBookRow t bk s.nextBookId).isbn = bk.isbn := rfl
      simp [updFn, hfn, merge_fresh_idem]

theorem upsert_idem (t : Nat) (bk : BookRecord) (s : LibraryState) :
    upsertBookRecord t bk (upsertBookRecord t bk s) = upsertBookRecord t bk s := by
  by_cases hno : isNoIsbn bk.isbn = true
  · simp [upsertBookRecord, hno]
  · have hv : isNoIsbn bk.isbn = false := by simpa using hno
    rw [upsert_of_any t bk _ hv (upsert_any t bk s hv), upsert_books_map_self t bk s hv]

theorem strip_set_upd (b : Book) (t : Nat) :
    stripUpdated { b with updatedAt := t } = stripUpdated b := rfl

theorem mem_upsert_books_matching (t : Nat) (bk : BookRecord) (s : LibraryState)
    (hv : isNoIsbn bk.isbn = false) :
    ∀ b ∈ (upsertBookRecord t bk s).books, b.isbn = bk.isbn →
      (∃ b0, b = mergeBookRow t bk b0) ∨ b = freshBookRow t bk s.nextBookId := by
  simp only [upsertBookRecord, hv, Bool.false_eq_true, if_false]
  split
  · rename_i hany
    intro b hb hisbn
    obtain ⟨b0, hb0, rfl⟩ := List.mem_map.1 hb
    by_cases h0 : b0.isbn = bk.isbn
    · exact Or.inl ⟨b0, by simp [updFn, h0]⟩
    · rw [show updFn t bk b0 = b0 from by simp [updFn, h0]] at hisbn
      exact absurd hisbn h0
  · rename_i hany
    intro b hb hisbn
    rcases List.mem_append.1 hb with hb | hb
    · exact absurd (List.any_eq_true.2 ⟨b, hb, by simp [hisbn]⟩) hany
    · exact Or.inr (List.mem_singleton.1 hb)

theorem upsert_strip (t t' : Nat) (bk : BookRecord) (s : LibraryState) :
    ((upsertBookRecord t' bk (upsertBookRecord t bk s)).books.map stripUpdated)
      = ((upsertBookRecord t bk s).books.map stripUpdated) := by
  by_cases hno : isNoIsbn bk.isbn = true
  · simp [upsertBookRecord, hno]
  · have hv : isNoIsbn bk.isbn = false := by simpa using hno
    rw [upsert_of_any t' bk _ hv (upsert_any t bk s hv)]
    show ((upsertBookRecord t bk s).books.map (updFn t' bk)).map stripUpdated
        = (upsertBookRecord t bk s).books.map stripUpdated
    rw [List.map_map]
    apply List.map_congr_left
    intro b hb
    by_cases h : b.isbn = bk.isbn
    · rcases mem_upsert_books_matching t bk s hv b hb h with ⟨b0, rfl⟩ | rfl
      · have h0 : b0.isbn = bk.isbn := h
        show stripUpdated (updFn t' bk (mergeBookRow t bk b0)) = stripUpdated (mergeBookRow t bk b0)
        rw [show updFn t' bk (mergeBookRow t bk b0) = mergeBookRow t' bk (mergeBookRow t bk b0)
          from by simp [updFn, mergeBookRow_isbn, h0]]
        rw [merge_merge, strip_set_upd]
      · show stripUpdated (updFn t' bk (freshBookRow t bk s.nextBookId))
            = stripUpdated (freshBookRow t bk s.nextBookId)
        rw [show updFn t' bk (freshBookRow t bk s.nextBookId)
              = mergeBookRow t' bk (freshBookRow t bk s.nextBookId)
          from by simp [updFn, freshBookRow]]
        rw [merge_fresh, strip_set_upd]
    · show stripUpdated (updFn t' bk b) = stripUpdated b
      simp [updFn, h]

theorem findBook_upsert (now : Nat) (bk : BookRecord) (s : LibraryState)
    (hv : isNoIsbn bk.isbn = false) :
    findBook (upsertBookRecord now bk s) bk.isbn =
      some (match findBook s bk.isbn with
            | some old => mergeBookRow now bk old
            | none => freshBookRow now bk s.nextBookId) := by
  simp only [upsertBookRecord, hv, Bool.false_eq_true, if_false]
  split
  · rename_i hany
    show List.find? (fun b => decide (b.isbn = bk.isbn)) (s.books.map (updFn now bk)) = _
    rw [List.find?_map]
    have hpf : ((fun b => decide (b.isbn = bk.isbn)) ∘ updFn now bk)
        = (fun b => decide (b.isbn = bk.isbn)) := by
      funext b
      simp [Function.comp, updFn_isbn]
    rw [hpf]
    obtain ⟨x, hx, hpx⟩ := List.any_eq_true.1 hany
    obtain ⟨old, hold⟩ := Option.isSome_iff_exists.1
      ((List.find?_isSome (p := fun b => decide (b.isbn = bk.isbn))).2 ⟨x, hx, hpx⟩)
    have hfb : findBook s bk.isbn = some old := hold
    rw [hold, hfb]
    have hpold : old.isbn = bk.isbn := by simpa using List.find?_some hold
    simp [updFn, hpold]
  · rename_i hany
    have hnone : s.books.find? (fun b => decide (b.isbn = bk.isbn)) = none := by
      rw [List.find?_eq_none]
      intro x hx
      simp only [decide_eq_true_eq]
      intro heq
      exact hany (List.any_eq_true.2 ⟨x, hx, by simp [heq]⟩)
    have hfb : findBook s bk.isbn = none := hnone
    show List.find? (fun b => decide (b.isbn = bk.isbn))
        (s.books ++ [freshBookRow now bk s.nextBookId]) = _
    rw [List.find?_append, hnone, hfb]
    simp [List.find?, freshBookRow]

/-- Claim C6 (amended).  A missing or sentinel identifier makes the
catalog upsert a no-op with no error signal.  Otherwise the stored row
for the identifier afterwards carries the incoming title, author and
cover after the JavaScript defaulting (empty title becomes the string
Unknown Title, empty author becomes the joined authors array or the
string Unknown Author, the cover is the first non-empty of the two
cover fields), while description and categories take the incoming value
only when it is non-empty and otherwise retain the previously stored
value. -/
theorem upsert_applies_merge_policy (now : Nat) (bk : BookRecord) (s : LibraryState) :
    (isNoIsbn bk.isbn = true → upsertBookRecord now bk s = s)
    ∧ (isNoIsbn bk.isbn = false →
        ∃ b', findBook (upsertBookRecord now bk s) bk.isbn = some b'
          ∧ b'.isbn = bk.isbn
          ∧ b'.title = effTitle bk
          ∧ b'.author = effAuthor bk
          ∧ b'.coverUrl = effCover bk
          ∧ b'.updatedAt = now
          ∧ b'.description = (if effDescription bk = "" then
                (match findBook s bk.isbn with
                 | some old => old.description
                 | none => effDescription bk)
              else effDescription bk)
          ∧ b'.categories = (if effCategories bk = "" then
                (match findBook s bk.isbn with
                 | some old => old.categories
                 | none => effCategories bk)
              else effCategories bk)) := by
  constructor
  · intro h
    simp [upsertBookRecord, h]
  · intro hv
    refine ⟨_, findBook_upsert now bk s hv, ?_⟩
    cases hfb : findBook s bk.isbn with
    | some old =>
      have hpold : old.isbn = bk.isbn := by
        simpa using List.find?_some hfb
      exact ⟨hpold, rfl, rfl, rfl, rfl, rfl, rfl⟩
    | none =>
      refine ⟨rfl, rfl, rfl, rfl, rfl, ?_, ?_⟩
      · show effDescription bk = _
        split <;> rfl
      · show effCategories bk = _
        split <;> rfl

/-- Claim C6, counterexample to the claim as stated: an incoming record
whose title field is empty is stored with the default title, not with
the incoming (empty) title. -/
theorem upsert_stores_default_title_counterexample :
    recMissingTitle.title = ""
    ∧ ∃ b ∈ (upsertBookRecord 0 recMissingTitle emptyState).books,
        b.isbn = recMissingTitle.isbn ∧ b.title ≠ recMissingTitle.title := by
  decide

/-- Claim C6, witness: the amended theorem applied to the sentinel
record and to a fully populated record over the empty store. -/
theorem upsert_applies_merge_policy_witness :
    upsertBookRecord 0 recNoIsbn emptyState = emptyState
    ∧ ∃ b', findBook (upsertBookRecord 0 recFull emptyState) recFull.isbn = some b'
        ∧ b'.isbn = recFull.isbn
        ∧ b'.title = effTitle recFull
        ∧ b'.author = effAuthor recFull
        ∧ b'.coverUrl = effCover recFull
        ∧ b'.updatedAt = 0
        ∧ b'.description = (if effDescription recFull = "" then
              (match findBook emptyState recFull.isbn with
               | some old => old.description
               | none => effDescription recFull)
            else effDescription recFull)
        ∧ b'.categories = (if effCategories recFull = "" then
              (match findBook emptyState recFull.isbn with
               | some old => old.categories
               | none => effCategories recFull)
            else effCategories recFull) :=
  ⟨(upsert_applies_merge_policy 0 recNoIsbn emptyState).1 (by decide),
   (upsert_applies_merge_policy 0 recFull emptyState).2 (by decide)⟩

/-- Claim C7 (amended).  Applying the catalog upsert twice with the
same record at the same clock reading leaves the whole store unchanged
compared to one application; across different clock readings the stored
rows agree on every column except updated_at, which the conflict clause
refreshes on each application. -/
theorem upsert_idempotent_content (t t' : Nat) (bk : BookRecord) (s : LibraryState) :
    upsertBookRecord t bk (upsertBookRecord t bk s) = upsertBookRecord t bk s
    ∧ ((upsertBookRecord t' bk (upsertBookRecord t bk s)).books.map stripUpdated)
        = ((upsertBookRecord t bk s).books.map stripUpdated) :=
  ⟨upsert_idem t bk s, upsert_strip t t' bk s⟩

/-- Claim C7, counterexample to the claim as stated: a second
application of the same record at a later clock reading changes the
stored row, because updated_at is refreshed. -/
theorem upsert_refreshes_timestamp_counterexample :
    (upsertBookRecord 1 recFull (upsertBookRecord 0 recFull emptyState)).books
      ≠ (upsertBookRecord 0 recFull emptyState).books := by
  decide

/-- Claim C8 (confirmed).  A loan gets its due timestamp at creation as
the checkout timestamp plus the fixed 7-day period, and no core
operation mutates the due timestamp of a loan row that stays in the
ledger: checkout appends one fresh row and leaves the others untouched,
return only removes rows, and the catalog upsert never touches the
checkouts table (the read-only queries have no state effect at all). -/
theorem due_date_fixed_at_creation (now userId cid : Nat)
    (isbn title author coverUrl : String) (bk : BookRecord) (s : LibraryState) :
    (mkCheckout now s.nextCheckoutId userId isbn title author coverUrl).dueDate
        = (mkCheckout now s.nextCheckoutId userId isbn title author coverUrl).checkoutDate
          + 7 * 24 * 60 * 60
    ∧ (checkoutBook now userId isbn title author coverUrl s).state.checkouts
        = s.checkouts ++ [mkCheckout now s.nextCheckoutId userId isbn title author coverUrl]
    ∧ (∀ c ∈ (returnBook cid s).state.checkouts, c ∈ s.checkouts)
    ∧ (upsertBookRecord now bk s).checkouts = s.checkouts := by
  refine ⟨rfl, ?_, ?_, upsert_checkouts now bk s⟩
  · show (upsertBookRecord now (checkoutRecord isbn title author coverUrl) _).checkouts = _
    rw [upsert_checkouts]
  · intro c hc
    exact (List.mem_filter.1 hc).1

/-- Claim C8, witness: a surviving row of the return of loan 3 is an
original ledger row, and an upsert leaves the ledger unchanged. -/
theorem due_date_fixed_at_creation_witness :
    exLoan 2 2 "A" "Alpha" "Ann" ∈ ex2State.checkouts
    ∧ (upsertBookRecord 0 recFull ex2State).checkouts = ex2State.checkouts := by
  have h := due_date_fixed_at_creation 0 1 3 "X" "T" "A" "" recFull ex2State
  exact ⟨h.2.2.1 (exLoan 2 2 "A" "Alpha" "Ann") (by decide), h.2.2.2⟩

/-- Claim C9 (confirmed).  The checkout handler performs no
availability check: in every store state, including one where the
computed available-copy count of the title is zero, it succeeds and
appends exactly one new loan row for the given user and title. -/
theorem checkout_never_checks_availability (now userId : Nat)
    (isbn title author coverUrl : String) (s : LibraryState) :
    (checkoutBook now userId isbn title author coverUrl s).success = true
    ∧ (checkoutBook now userId isbn title author coverUrl s).state.checkouts
        = s.checkouts ++ [mkCheckout now s.nextCheckoutId userId isbn title author coverUrl]
    ∧ (mkCheckout now s.nextCheckoutId userId isbn title author coverUrl).userId = userId
    ∧ (mkCheckout now s.nextCheckoutId userId isbn title author coverUrl).isbn = isbn := by
  refine ⟨rfl, ?_, rfl, rfl⟩
  show (upsertBookRecord now (checkoutRecord isbn title author coverUrl) _).checkouts = _
  rw [upsert_checkouts]

/-- Claim C9, witness: in a state where title A has zero available
copies, a further checkout of A still succeeds. -/
theorem checkout_never_checks_availability_witness :
    availableCopies (exBook 1 "A" "Alpha" "Ann" 1 0).copiesTotal (activeCount ex2State "A") = 0
    ∧ (checkoutBook 7 1 "A" "Alpha" "Ann" "" ex2State).success = true :=
  ⟨by decide, (checkout_never_checks_availability 7 1 "A" "Alpha" "Ann" "" ex2State).1⟩

/-- Claim C10 (confirmed).  In the suggestion query the popularity
count and the active-loan count are computed by two textually identical
subqueries over all checkout rows of the isbn, with no condition on the
returned flag, so the two signals agree everywhere, and every suggested
row satisfies availableCopies = MAX(copies_total - checkoutCount, 0). -/
theorem stats_equals_current_loans (s : LibraryState) (userId : Nat) :
    (∀ i, checkoutCount s i = activeCount s i)
    ∧ ∀ row ∈ (getUserBookSuggestions s userId).suggestions,
        row.checkoutCount = checkoutCount s row.isbn
        ∧ ∃ b ∈ s.books, b.isbn = row.isbn
            ∧ row.availableCopies = max (b.copiesTotal - (row.checkoutCount : Int)) 0 := by
  refine ⟨fun i => rfl, ?_⟩
  intro row hrow
  obtain ⟨b, hb, rfl⟩ := List.mem_map.1 hrow
  have hbmem : b ∈ s.books :=
    (List.mem_filter.1 ((mem_sortLE _ b _).1 (List.mem_of_mem_take hb))).1
  exact ⟨rfl, b, hbmem, rfl, rfl⟩

/-- Claim C10, witness: the two counts agree on title A, and the
suggested row for title B carries the clamped availability. -/
theorem stats_equals_current_loans_witness :
    (mkSuggestionRow ex2State 1 (exBook 2 "B" "Beta" "Bob" 1 0)).checkoutCount
        = checkoutCount ex2State (mkSuggestionRow ex2State 1 (exBook 2 "B" "Beta" "Bob" 1 0)).isbn
    ∧ ∃ b ∈ ex2State.books,
        b.isbn = (mkSuggestionRow ex2State 1 (exBook 2 "B" "Beta" "Bob" 1 0)).isbn
        ∧ (mkSuggestionRow ex2State 1 (exBook 2 "B" "Beta" "Bob" 1 0)).availableCopies
            = max (b.copiesTotal
                - ((mkSuggestionRow ex2State 1 (exBook 2 "B" "Beta" "Bob" 1 0)).checkoutCount : Int)) 0 :=
  (stats_equals_current_loans ex2State 1).2
    (mkSuggestionRow ex2State 1 (exBook 2 "B" "Beta" "Bob" 1 0)) (by decide)

/-- Claim C3 (amended).  Every row of get-library-books carries
availableCopies = MAX(copies_total - activeLoanCount, 0), where the
active-loan count is the number of ALL checkout rows stored for the
isbn, with no condition on the returned flag (under the hard-delete
return semantics every stored row is an outstanding loan; a legacy row
flagged returned is nevertheless counted).  For rows with at least one
total copy the value lies in the closed range from 0 to copies_total,
and with no stored loan rows it equals copies_total. -/
theorem library_books_availability (s : LibraryState) :
    ∀ row ∈ libraryBooks s,
      row.availableCopies = max (row.copiesTotal - (activeCount s row.isbn : Int)) 0
      ∧ (1 ≤ row.copiesTotal →
          0 ≤ row.availableCopies ∧ row.availableCopies ≤ row.copiesTotal
          ∧ (activeCount s row.isbn = 0 → row.availableCopies = row.copiesTotal)) := by
  intro row hrow
  obtain ⟨b, hb, rfl⟩ := List.mem_map.1 hrow
  refine ⟨rfl, fun h1 => ?_⟩
  have h1b : 1 ≤ b.copiesTotal := h1
  show 0 ≤ availableCopies b.copiesTotal (activeCount s b.isbn)
      ∧ availableCopies b.copiesTotal (activeCount s b.isbn) ≤ b.copiesTotal
      ∧ (activeCount s b.isbn = 0
          → availableCopies b.copiesTotal (activeCount s b.isbn) = b.copiesTotal)
  simp only [availableCopies, max_def]
  split <;> omega

/-- Claim C3, counterexample to the claim as stated: with one stored
row flagged returned, the code counts it as an active loan, so the
computed availability differs from the formula over outstanding
(non-returned) rows that the claim describes. -/
theorem availability_counts_returned_rows_counterexample :
    ∃ row ∈ libraryBooks ex3State,
      row.availableCopies
        ≠ max (row.copiesTotal - (specOutstandingCount ex3State row.isbn : Int)) 0 := by
  decide

/-- Claim C3, witness: the amended theorem applied to the library row
of title A, whose five loans exhaust the single copy. -/
theorem library_books_availability_witness :
    (0:Int) ≤ ({ id := 1, isbn := "A", title := "Alpha", author := "Ann", coverUrl := "", description := "", categories := "", copiesTotal := 1, availableCopies := 0 } : LibraryBookRow).availableCopies ∧ ({ id := 1, isbn := "A", title := "Alpha", author := "Ann", coverUrl := "", description := "", categories := "", copiesTotal := 1, availableCopies := 0 } : LibraryBookRow).availableCopies ≤ ({ id := 1, isbn := "A", title := "Alpha", author := "Ann", coverUrl := "", description := "", categories := "", copiesTotal := 1, availableCopies := 0 } : LibraryBookRow).copiesTotal ∧ (activeCount ex2State "A" = 0 → ({ id := 1, isbn := "A", title := "Alpha", author := "Ann", coverUrl := "", description := "", categories := "", copiesTotal := 1, availableCopies := 0 } : LibraryBookRow).availableCopies = ({ id := 1, isbn := "A", title := "Alpha", author := "Ann", coverUrl := "", description := "", categories := "", copiesTotal := 1, availableCopies := 0 } : LibraryBookRow).copiesTotal) :=
  (library_books_availability ex2State { id := 1, isbn := "A", title := "Alpha", author := "Ann", coverUrl := "", description := "", categories := "", copiesTotal := 1, availableCopies := 0 } (by decide)).2 (by decide)

/-- Claim C1 (amended).  The personalized suggestion list never
contains a title for which the user has a checkout row currently stored
in the ledger, and whenever that list is non-empty it is exactly what
the caller displays.  Because the return handler hard-deletes the loan
row, the exclusion reaches only the loans still stored: a returned
title may reappear (see the counterexample), and when the personalized
list is empty the displayed popular fallback may contain borrowed
titles. -/
theorem suggestions_exclude_current_loans (s : LibraryState) (userId : Nat) :
    (∀ row ∈ (getUserBookSuggestions s userId).suggestions,
        ∀ c ∈ s.checkouts, c.userId = userId → c.isbn ≠ row.isbn)
    ∧ ((getUserBookSuggestions s userId).suggestions ≠ [] →
        displayedIsbns (getUserBookSuggestions s userId)
          = (getUserBookSuggestions s userId).suggestions.map SuggestionRow.isbn) := by
  constructor
  · intro row hrow c hc hcu heq
    obtain ⟨b, hb, rfl⟩ := List.mem_map.1 hrow
    have hbmem := List.mem_filter.1 ((mem_sortLE _ b _).1 (List.mem_of_mem_take hb))
    have hnotin : b.isbn ∉ (userHistory s userId).map HistoryRow.isbn := by
      simpa using hbmem.2
    apply hnotin
    have hhist : ({ isbn := c.isbn, title := c.title, author := c.author } : HistoryRow)
        ∈ userHistory s userId := by
      unfold userHistory
      rw [mem_distinct]
      exact List.mem_map.2 ⟨c, List.mem_filter.2 ⟨hc, by simp [hcu]⟩, rfl⟩
    exact List.mem_map.2 ⟨_, hhist, heq⟩
  · intro hne
    simp [displayedIsbns, List.isEmpty_iff, hne]

/-- Claim C1, counterexample to the claim as stated: user 1 checks out
title X, the loan is returned (which deletes the ledger row), and X,
a title the user has borrowed, appears again both in the personalized
list and in the displayed list. -/
theorem returned_title_reappears_counterexample :
    ex1Return.success = true
    ∧ (∃ c ∈ ex1Checkout.state.checkouts, c.userId = 1 ∧ c.isbn = "X")
    ∧ "X" ∈ (getUserBookSuggestions ex1Return.state 1).suggestions.map SuggestionRow.isbn
    ∧ "X" ∈ displayedIsbns (getUserBookSuggestions ex1Return.state 1) := by
  decide

/-- Claim C1, witness: for user 2, whose loan of title A is still in
the ledger, the suggested title B differs from A, and the displayed
list is the personalized one. -/
theorem suggestions_exclude_current_loans_witness :
    (exLoan 1 2 "A" "Alpha" "Ann").isbn
        ≠ (mkSuggestionRow ex2State 2 (exBook 2 "B" "Beta" "Bob" 1 0)).isbn
    ∧ displayedIsbns (getUserBookSuggestions ex2State 2)
        = (getUserBookSuggestions ex2State 2).suggestions.map SuggestionRow.isbn := by
  have h := suggestions_exclude_current_loans ex2State 2
  exact ⟨h.1 (mkSuggestionRow ex2State 2 (exBook 2 "B" "Beta" "Bob" 1 0)) (by decide)
      (exLoan 1 2 "A" "Alpha" "Ann") (by decide) (by decide),
    h.2 (by decide)⟩

/-- Claim C2 (amended).  For a user with no loan rows and a non-empty
catalog, the personalized list is NOT empty: the exclusion step removes
nothing, every catalog title is scored as availability bonus plus
global checkout count, and the caller displays this personalized list.
The popular fallback is displayed only when the personalized list is
empty. -/
theorem cold_start_personalized_list (s : LibraryState) (userId : Nat)
    (h1 : ∀ c ∈ s.checkouts, c.userId ≠ userId) (h2 : s.books ≠ []) :
    (getUserBookSuggestions s userId).suggestions ≠ []
    ∧ displayedIsbns (getUserBookSuggestions s userId)
        = (getUserBookSuggestions s userId).suggestions.map SuggestionRow.isbn
    ∧ ∀ row ∈ (getUserBookSuggestions s userId).suggestions,
        row.score = availabilityBonus row.availableCopies + row.checkoutCount := by
  have hhist : userHistory s userId = [] := by
    unfold userHistory
    have hfil : s.checkouts.filter (fun c => decide (c.userId = userId)) = [] := by
      rw [List.filter_eq_nil_iff]
      intro c hc
      simp [h1 c hc]
    simp [hfil, distinct, distinctAux]
  have hcand : candidateBooks s userId = s.books := by
    unfold candidateBooks
    rw [hhist]
    simp
  have hne : (getUserBookSuggestions s userId).suggestions ≠ [] := by
    show suggestionRows s userId ≠ []
    unfold suggestionRows
    rw [hcand]
    intro hempty
    apply h2
    have hlen := congrArg List.length hempty
    simp only [List.length_map, List.length_take, length_sortLE, List.length_nil] at hlen
    have : s.books.length = 0 := by omega
    exact List.length_eq_zero.1 this
  refine ⟨hne, by simp [displayedIsbns, List.isEmpty_iff, hne], ?_⟩
  intro row hrow
  obtain ⟨b, hb, rfl⟩ := List.mem_map.1 hrow
  show suggestionScore s userId b
      = availabilityBonus (availableCopies b.copiesTotal (activeCount s b.isbn))
        + checkoutCount s b.isbn
  unfold suggestionScore
  rw [hhist]
  simp [overlapBonus, authorMatch, titleOverlap]

/-- Claim C2, counterexample to the claim as stated: user 1 has zero
loan history and the catalog is non-empty, yet the personalized list is
non-empty and is what the caller displays, in an order (B before A,
driven by the availability bonus) different from the descending global
checkout count order (A before B) the claim requires. -/
theorem cold_start_shows_personalized_counterexample :
    (∀ c ∈ ex2State.checkouts, c.userId ≠ 1)
    ∧ (getUserBookSuggestions ex2State 1).suggestions ≠ []
    ∧ usedPopularFallback (getUserBookSuggestions ex2State 1) = false
    ∧ displayedIsbns (getUserBookSuggestions ex2State 1) = ["B", "A"]
    ∧ (getUserBookSuggestions ex2State 1).popular.map PopularRow.isbn = ["A", "B"] := by
  decide

/-- Claim C2, witness: the amended theorem applied to the cold-start
user 1 of the two-book scenario. -/
theorem cold_start_personalized_list_witness :
    (getUserBookSuggestions ex2State 1).suggestions ≠ []
    ∧ displayedIsbns (getUserBookSuggestions ex2State 1)
        = (getUserBookSuggestions ex2State 1).suggestions.map SuggestionRow.isbn := by
  have h := cold_start_personalized_list ex2State 1 (by decide) (by decide)
  exact ⟨h.1, h.2.1⟩

/-- Claim C4 (confirmed).  For every candidate title that survives the
exclusion step, the score is the CASE bonus (30 when some historical
loan has a case-insensitively equal author, else 15 when some
historical loan title, other than an exact match, occurs
case-insensitively inside the candidate title or description under the
SQL LIKE containment, else 0), plus 10 when the computed available-copy
count is positive, plus the global checkout count; the 30 and 15
bonuses are mutually exclusive with the author match taking precedence,
and the same formula holds for every row of the returned list. -/
theorem suggestion_score_formula (s : LibraryState) (userId : Nat) :
    (∀ b ∈ candidateBooks s userId,
        suggestionScore s userId b =
          (if authorMatch (userHistory s userId) b then 30
           else if titleOverlap (userHistory s userId) b then 15 else 0)
          + (if 0 < availableCopies b.copiesTotal (activeCount s b.isbn) then 10 else 0)
          + checkoutCount s b.isbn)
    ∧ ∀ row ∈ (getUserBookSuggestions s userId).suggestions,
        ∃ b ∈ s.books, row.isbn = b.isbn ∧
          row.score =
            (if authorMatch (userHistory s userId) b then 30
             else if titleOverlap (userHistory s userId) b then 15 else 0)
            + (if 0 < availableCopies b.copiesTotal (activeCount s b.isbn) then 10 else 0)
            + checkoutCount s b.isbn := by
  constructor
  · intro b _
    rfl
  · intro row hrow
    obtain ⟨b, hb, rfl⟩ := List.mem_map.1 hrow
    have hbmem : b ∈ s.books :=
      (List.mem_filter.1 ((mem_sortLE _ b _).1 (List.mem_of_mem_take hb))).1
    exact ⟨b, hbmem, rfl, rfl⟩

/-- Claim C4, witness: in the author-overlap scenario the suggested row
for title B is scored 30 (author match) plus 10 (available) plus 0. -/
theorem suggestion_score_formula_witness :
    ∃ b ∈ ex4State.books,
      (mkSuggestionRow ex4State 1 (exBook 2 "B" "Beta" "Ann" 1 5)).isbn = b.isbn
      ∧ (mkSuggestionRow ex4State 1 (exBook 2 "B" "Beta" "Ann" 1 5)).score =
          (if authorMatch (userHistory ex4State 1) b then 30
           else if titleOverlap (userHistory ex4State 1) b then 15 else 0)
          + (if 0 < availableCopies b.copiesTotal (activeCount ex4State b.isbn) then 10 else 0)
          + checkoutCount ex4State b.isbn :=
  (suggestion_score_formula ex4State 1).2
    (mkSuggestionRow ex4State 1 (exBook 2 "B" "Beta" "Ann" 1 5)) (by decide)

/-- Claim C5 (confirmed).  The personalized list has at most 10 rows
and is sorted: across consecutive rows the score never increases, and
rows with equal scores appear with the most recently updated catalog
entry first. -/
theorem suggestions_sorted_limited (s : LibraryState) (userId : Nat) :
    (getUserBookSuggestions s userId).suggestions.length ≤ 10
    ∧ List.Chain'
        (fun x y => y.score ≤ x.score ∧ (x.score = y.score → y.updatedAt ≤ x.updatedAt))
        (getUserBookSuggestions s userId).suggestions := by
  constructor
  · show (suggestionRows s userId).length ≤ 10
    unfold suggestionRows
    simp only [List.length_map, List.length_take]
    omega
  · apply List.Pairwise.chain'
    show List.Pairwise _
        (((sortLE (suggestionLE s userId) (candidateBooks s userId)).take 10).map
          (mkSuggestionRow s userId))
    rw [List.pairwise_map]
    have hp : ((sortLE (suggestionLE s userId) (candidateBooks s userId)).take 10).Pairwise
        (fun x y => suggestionLE s userId x y = true) :=
      List.Pairwise.sublist (List.take_sublist 10 _)
        (pairwise_sortLE (suggestionLE_trans s userId) (suggestionLE_total s userId) _)
    refine hp.imp ?_
    intro a b hab
    simp only [suggestionLE, Bool.or_eq_true, Bool.and_eq_true, decide_eq_true_eq] at hab
    constructor
    · show suggestionScore s userId b ≤ suggestionScore s userId a
      omega
    · intro heq
      have heq2 : suggestionScore s userId a = suggestionScore s userId b := heq
      show b.updatedAt ≤ a.updatedAt
      omega

/-- Claim C5, witness: the two bounds at a concrete two-book store. -/
theorem suggestions_sorted_limited_witness :
    (getUserBookSuggestions ex2State 1).suggestions.length ≤ 10
    ∧ List.Chain'
        (fun x y => y.score ≤ x.score ∧ (x.score = y.score → y.updatedAt ≤ x.updatedAt))
        (getUserBookSuggestions ex2State 1).suggestions :=
  suggestions_sorted_limited ex2State 1

theorem mem_tails (t s : List Char) : t ∈ tails s ↔ ∃ l, s = l ++ t := by
  induction s with
  | nil =>
    simp only [tails, List.mem_singleton]
    constructor
    · rintro rfl; exact ⟨[], rfl⟩
    · rintro ⟨l, hl⟩
      exact (List.append_eq_nil.1 hl.symm).2
  | cons c cs ih =>
    simp only [tails, List.mem_cons, ih]
    constructor
    · rintro (rfl | ⟨l, rfl⟩)
      · exact ⟨[], rfl⟩
      · exact ⟨c :: l, rfl⟩
    · rintro ⟨l, hl⟩
      cases l with
      | nil => exact Or.inl hl.symm
      | cons x xs =>
        simp at hl
        exact Or.inr ⟨xs, hl.2⟩

theorem nil_mem_tails (s : List Char) : [] ∈ tails s :=
  (mem_tails [] s).2 ⟨s, by simp⟩

theorem likeMatch_lit_cons (c : Char) (hc1 : c ≠ '%') (hc2 : c ≠ '_')
    (ps : List Char) (s : List Char) :
    likeMatch (c :: ps) s = match s with
      | [] => false
      | d :: cs => c == d && likeMatch ps cs := by
  cases s <;> simp [likeMatch, hc1, hc2]

theorem likeMatch_append_pct (p : List Char) (hp : ∀ c ∈ p, c ≠ '%' ∧ c ≠ '_')
    (t : List Char) :
    likeMatch (p ++ ['%']) t = true ↔ ∃ r, t = p ++ r := by
  induction p generalizing t with
  | nil =>
    simp only [List.nil_append]
    constructor
    · intro _
      exact ⟨t, rfl⟩
    · intro _
      show (tails t).any (fun u => likeMatch [] u) = true
      refine List.any_eq_true.2 ⟨[], nil_mem_tails t, ?_⟩
      rfl
  | cons c p ih =>
    have hc := hp c (List.mem_cons_self c p)
    have hp2 : ∀ x ∈ p, x ≠ '%' ∧ x ≠ '_' := fun x hx => hp x (List.mem_cons_of_mem c hx)
    rw [List.cons_append, likeMatch_lit_cons c hc.1 hc.2]
    cases t with
    | nil =>
      simp
    | cons d cs =>
      simp only [Bool.and_eq_true, beq_iff_eq, ih hp2]
      constructor
      · rintro ⟨rfl, r, rfl⟩
        exact ⟨r, rfl⟩
      · rintro ⟨r, hr⟩
        simp only [List.cons_append, List.cons.injEq] at hr
        exact ⟨hr.1.symm, r, hr.2⟩

theorem likeMatch_pct_seg (hay needle : List Char)
    (h : ∀ c ∈ needle, c ≠ '%' ∧ c ≠ '_') :
    likeMatch ('%' :: (needle ++ ['%'])) hay = true ↔ containsSeg hay needle := by
  show (tails hay).any (fun t => likeMatch (needle ++ ['%']) t) = true ↔ _
  rw [List.any_eq_true]
  constructor
  · rintro ⟨t, ht, hlm⟩
    obtain ⟨l, rfl⟩ := (mem_tails t hay).1 ht
    obtain ⟨r, rfl⟩ := (likeMatch_append_pct needle h t).1 hlm
    exact ⟨l, r, by simp⟩
  · rintro ⟨l, r, rfl⟩
    refine ⟨needle ++ r, (mem_tails _ _).2 ⟨l, by simp⟩, ?_⟩
    exact (likeMatch_append_pct needle h _).2 ⟨r, rfl⟩

theorem likeContains_eq_seg (hay needle : String)
    (h : ∀ c ∈ needle.data, c ≠ '%' ∧ c ≠ '_') :
    likeContains hay needle = true ↔ containsSeg hay.data needle.data :=
  likeMatch_pct_seg hay.data needle.data h
